import Mathlib

/-!
# Verification of the token lifecycle layer of rwsdk-web-extension-starter

Shallow embedding of `src/extension/src/shared/edge-fetch.ts` (the
`EdgeFetchClient` request pipeline, token cache and single-flight refresh
coordinator, and the `EdgeAuthFlow` orchestrator).  JavaScript optional
values (`undefined` / `null`) are modelled with `Option`; JavaScript string
truthiness (`""` is falsy) and number truthiness (`0` is falsy) are modelled
explicitly where the source relies on them.  Timestamps
(`Date.now()`, `getTime()`) are integers (milliseconds).  Asynchronous
storage writes are modelled by an explicit success flag where a claim
depends on their failure behaviour, and as succeeding elsewhere.
-/

namespace EdgeFetch

/-- `TokenData` from edge-fetch.ts: `{ accessToken: string, refreshToken?: string,
expiresAt?: number }`. -/
structure TokenData where
  accessToken : String
  refreshToken : Option String
  expiresAt : Option Int
deriving Repr, DecidableEq

/-- JavaScript truthiness of an optional string: `undefined`, `null` and `""`
are falsy, every other string is truthy. -/
def strTruthy : Option String → Bool
  | none => false
  | some s => !(s == "")

/-- JavaScript `a || b` on optional strings: returns `a` when `a` is truthy,
otherwise `b` (even when `b` is itself falsy). -/
def jsOrStr (a b : Option String) : Option String :=
  if strTruthy a then a else b

/-- `this.tokenData?.refreshToken`: optional chaining through the nullable
client field. -/
def optRefreshToken : Option TokenData → Option String
  | none => none
  | some td => td.refreshToken

/-- `this.tokenData?.accessToken`: optional chaining through the nullable
client field (the field itself is a non-optional string). -/
def optAccessToken : Option TokenData → Option String
  | none => none
  | some td => some td.accessToken

/-- `EdgeFetchClient.isTokenExpired`:
`if (!this.tokenData?.expiresAt) return false;`
`return Date.now() >= this.tokenData.expiresAt - 60000;`
JavaScript `!x` is true when `x` is `undefined` or the number `0`, so an
`expiresAt` of exactly `0` takes the early-false branch. -/
def isTokenExpired (now : Int) (tokenData : Option TokenData) : Bool :=
  match tokenData with
  | none => false
  | some td =>
    match td.expiresAt with
    | none => false
    | some e => if e == 0 then false else decide (now ≥ e - 60000)

/-- First conjunct of `EdgeFetchClient.isAuthenticated`:
`this.tokenData?.accessToken !== null`.  When `tokenData` is `null`, optional
chaining yields `undefined`, and `undefined !== null` is `true` under strict
inequality; when `tokenData` is present, `accessToken` is a string and a
string is never strictly `null`.  The conjunct is therefore `true` in both
cases. -/
def accessTokenNotStrictNull : Option TokenData → Bool
  | none => true
  | some _ => true

/-- `EdgeFetchClient.isAuthenticated`:
`return this.tokenData?.accessToken !== null && !this.isTokenExpired();`. -/
def isAuthenticated (now : Int) (tokenData : Option TokenData) : Bool :=
  accessTokenNotStrictNull tokenData && !(isTokenExpired now tokenData)

/-- `EdgeFetchClient.saveTokenData`:
`try { await chrome.storage.local.set({ tokenData }); this.tokenData = tokenData; }`
`catch (error) { console.error(...); }`
`storeOk` is the outcome of the `chrome.storage.local.set` write.  The result
is the in-memory `this.tokenData` afterwards, paired with whether the call
rejected.  The assignment to memory happens only after a successful store
write, and a store failure is caught and logged, so the call never rejects. -/
def saveTokenData (storeOk : Bool) (mem : Option TokenData) (td : TokenData) :
    Option TokenData × Bool :=
  if storeOk then (some td, false) else (mem, false)

/-- Parsed JSON body of a successful `POST /api/auth/refresh` response.
`expiresAt` holds `new Date(body.expiresAt).getTime()` when the server sent a
truthy `expiresAt`, and `none` otherwise. -/
structure RefreshBody where
  accessToken : String
  refreshToken : Option String
  expiresAt : Option Int
deriving Repr, DecidableEq

/-- Outcome of one network refresh call: either a parsed good response, or a
failure (a network rejection or a non-ok HTTP status — both throw inside the
`try` of `performTokenRefresh`). -/
inductive RefreshResult where
  | ok (body : RefreshBody)
  | err
deriving Repr, DecidableEq

/-- The token record `performTokenRefresh` saves on success:
`{ accessToken: newTokenData.accessToken,`
`  refreshToken: newTokenData.refreshToken || this.tokenData?.refreshToken,`
`  expiresAt: newTokenData.expiresAt ? new Date(...).getTime() : undefined }`. -/
def mergeRefreshedToken (body : RefreshBody) (mem : Option TokenData) : TokenData :=
  { accessToken := body.accessToken
    refreshToken := jsOrStr body.refreshToken (optRefreshToken mem)
    expiresAt := body.expiresAt }

/-- `EdgeFetchClient.performTokenRefresh` on a given network outcome: on
success, saves the merged token (storage write modelled as succeeding); on any
failure, `catch { console.error(...); await this.clearTokenData(); throw error; }`.
Returns (whether it threw, the in-memory token afterwards). -/
def performTokenRefresh (res : RefreshResult) (mem : Option TokenData) :
    Bool × Option TokenData :=
  match res with
  | .err => (true, none)
  | .ok body => (false, (saveTokenData true mem (mergeRefreshedToken body mem)).1)

/-- Result of one sequential call of `refreshAccessToken` (the in-flight
promise is `null` on entry and nulled again by the `finally`, so in a
sequential execution the single-flight guard is transparent; its concurrent
behaviour is modelled separately by the `SF` machine below). -/
structure RefreshCall where
  threw : Bool
  mem : Option TokenData
  netCalls : Nat
deriving Repr, DecidableEq

/-- `EdgeFetchClient.refreshAccessToken` in a sequential execution:
`if (!this.tokenData?.refreshToken) throw new Error("No refresh token available");`
then delegates to `performTokenRefresh` (one network call). -/
def refreshAccessToken (res : RefreshResult) (mem : Option TokenData) : RefreshCall :=
  if strTruthy (optRefreshToken mem) then
    let p := performTokenRefresh res mem
    { threw := p.1, mem := p.2, netCalls := 1 }
  else
    { threw := true, mem := mem, netCalls := 0 }

/-- A network response as the pipeline observes it: HTTP status plus the three
rotation headers read by `fetch` (`response.headers.get` yields `null` for a
missing header, modelled as `none`).  `xExpiresAt` holds
`new Date(h).getTime()` when the `X-Token-Expires-At` header is truthy, and
`none` otherwise. -/
structure HttpResponse where
  status : Nat
  xAccessToken : Option String
  xRefreshToken : Option String
  xExpiresAt : Option Int
deriving Repr, DecidableEq

/-- Deterministic environment for one call of `EdgeFetchClient.fetch`:
`Date.now()`, the response of the n-th underlying request send, and the
outcome of the n-th network refresh call. -/
structure FetchEnv where
  now : Int
  response : Nat → HttpResponse
  refresh : Nat → RefreshResult

/-- The only error `fetch` itself raises: `throw new Error('Authentication required')`. -/
inductive FetchOutcome where
  | ok (resp : HttpResponse)
  | authRequired
deriving Repr, DecidableEq

/-- Observable result of one `fetch` call: its outcome, the in-memory token
cache afterwards, the `Authorization` header value of each underlying request
send in order, and the number of network refresh calls made. -/
structure FetchResult where
  outcome : FetchOutcome
  mem : Option TokenData
  sentAuth : List (Option String)
  refreshCalls : Nat
deriving Repr, DecidableEq

/-- Step 2 of `fetch` (lines 215–223): proactive refresh.
`if (!skipAuth && this.tokenData) { if (this.isTokenExpired() && this.tokenData.refreshToken) {`
`try { await this.refreshAccessToken(); } catch { await this.clearTokenData(); } } }`
Returns the in-memory token afterwards and the number of refresh network calls. -/
def proactiveStage (env : FetchEnv) (skipAuth : Bool) (mem0 : Option TokenData) :
    Option TokenData × Nat :=
  if !skipAuth && mem0.isSome then
    if isTokenExpired env.now mem0 && strTruthy (optRefreshToken mem0) then
      let rc := refreshAccessToken (env.refresh 0) mem0
      if rc.threw then (none, rc.netCalls) else (rc.mem, rc.netCalls)
    else (mem0, 0)
  else (mem0, 0)

/-- Lines 225–228 of `fetch`: inside the `!skipAuth && this.tokenData` block
(the guard reads the token held at entry, `mem0`), attach
`Authorization: Bearer <accessToken>` if the current token (`mem1`, possibly
refreshed) has a truthy access token. -/
def attachAuth (skipAuth : Bool) (mem0 mem1 : Option TokenData) : Option String :=
  if !skipAuth && mem0.isSome && strTruthy (optAccessToken mem1) then
    some ("Bearer " ++ (optAccessToken mem1).getD "")
  else none

/-- Lines 271–282 of `fetch`: rotation of server-pushed credentials.
`if (newAccessToken) { await this.saveTokenData({ accessToken: newAccessToken,`
`refreshToken: newRefreshToken || this.tokenData?.refreshToken,`
`expiresAt: expiresAt ? new Date(expiresAt).getTime() : undefined }); }`. -/
def applyRotation (resp : HttpResponse) (mem : Option TokenData) : Option TokenData :=
  if strTruthy resp.xAccessToken then
    (saveTokenData true mem
      { accessToken := resp.xAccessToken.getD ""
        refreshToken := jsOrStr resp.xRefreshToken (optRefreshToken mem)
        expiresAt := resp.xExpiresAt }).1
  else mem

/-- `EdgeFetchClient.fetch(endpoint, options)` (lines 200–289), for a fixed
environment of network outcomes.  The reactive 401 branch (lines 239–269):
on 401 with retry not suppressed and a truthy refresh token, refresh and
resend once with rebuilt headers; a non-401 retried response is returned
directly (without passing through the rotation inspection); a still-401
retried response, or a failed refresh, clears tokens and throws
`Authentication required`.  Any other 401 clears tokens and throws.  A non-401
first response passes through rotation and is returned. -/
def edgeFetch (env : FetchEnv) (skipAuth skipRetry : Bool) (mem0 : Option TokenData) :
    FetchResult :=
  let pro := proactiveStage env skipAuth mem0
  let mem1 := pro.1
  let auth1 := attachAuth skipAuth mem0 mem1
  let resp1 := env.response 0
  if resp1.status == 401 && !skipRetry && strTruthy (optRefreshToken mem1) then
    let rc := refreshAccessToken (env.refresh pro.2) mem1
    if rc.threw then
      { outcome := .authRequired, mem := none, sentAuth := [auth1]
        refreshCalls := pro.2 + rc.netCalls }
    else
      let auth2 :=
        if strTruthy (optAccessToken rc.mem) then
          some ("Bearer " ++ (optAccessToken rc.mem).getD "")
        else auth1
      let resp2 := env.response 1
      if resp2.status != 401 then
        { outcome := .ok resp2, mem := rc.mem, sentAuth := [auth1, auth2]
          refreshCalls := pro.2 + rc.netCalls }
      else
        { outcome := .authRequired, mem := none, sentAuth := [auth1, auth2]
          refreshCalls := pro.2 + rc.netCalls }
  else if resp1.status == 401 then
    { outcome := .authRequired, mem := none, sentAuth := [auth1], refreshCalls := pro.2 }
  else
    { outcome := .ok resp1, mem := applyRotation resp1 mem1, sentAuth := [auth1]
      refreshCalls := pro.2 }

/-- `EdgeSession` / the `edgeSession` record persisted by useEdgeSession. -/
structure SessionRecord where
  user : Option String
  isAuthenticated : Bool
  isLoading : Bool
  error : Option String
deriving Repr, DecidableEq

/-- Local state visible to `EdgeAuthFlow.logout` in the extension context:
the fetch client's in-memory token cache, the persisted `chrome.storage.local`
token record, and the persisted `chrome.storage.sync` `edgeSession` record. -/
structure ExtensionLocalState where
  memTokens : Option TokenData
  localStore : Option TokenData
  syncSession : Option SessionRecord
deriving Repr, DecidableEq

/-- `EdgeAuthFlow.logout` (extension branch):
`try { await edgeFetch("/api/auth/logout", { method: "POST" }); }`
`catch (error) { console.error("Server logout failed:", error); }`
`await chrome.storage.local.clear(); await chrome.storage.sync.remove(["edgeSession"]);`
The server call is an ordinary `edgeFetch` (default options), whose outcome —
success or `Authentication required` — is swallowed, but which may mutate the
client's in-memory token cache; its write-through to `chrome.storage.local`
is not tracked since `local.clear()` wipes that store immediately after.
Returns the state afterwards paired with whether the call rejected. -/
def edgeAuthFlowLogout (env : FetchEnv) (st : ExtensionLocalState) :
    ExtensionLocalState × Bool :=
  let fr := edgeFetch env false false st.memTokens
  ({ memTokens := fr.mem, localStore := none, syncSession := none }, false)

/-- Normalized result of `EdgeAuthFlow.login`:
`{ success: boolean, user?, error?, tokenData? }`. -/
structure AuthResult where
  success : Bool
  user : Option String
  error : Option String
  tokenData : Option TokenData
deriving Repr, DecidableEq

/-- Outcome of the platform-specific sub-flow (`extensionLogin` / `webLogin`)
awaited inside `login`'s `try`: the promise either resolves with an
`AuthResult` or rejects — with an `Error` carrying a message (`some msg`) or
with a non-`Error` value (`none`). -/
inductive SubFlowOutcome where
  | resolves (r : AuthResult)
  | rejects (msg : Option String)
deriving Repr, DecidableEq

/-- Platform detected by the module-level capability probes `isExtension` /
`isWeb`; `other` is the fall-through that throws `Unsupported platform`. -/
inductive Platform where
  | extension
  | web
  | other
deriving Repr, DecidableEq

/-- `EdgeAuthFlow.login` (lines 400–416): dispatches on the platform inside a
`try`; any thrown error is caught and normalized:
`return { success: false, error: error instanceof Error ? error.message : "Login failed" }`.
Returns the resolved `AuthResult` paired with whether the promise rejected. -/
def edgeAuthFlowLogin (p : Platform) (sub : SubFlowOutcome) : AuthResult × Bool :=
  match p with
  | .other =>
    ({ success := false, user := none, error := some "Unsupported platform"
       tokenData := none }, false)
  | _ =>
    match sub with
    | .resolves r => (r, false)
    | .rejects msg =>
      ({ success := false, user := none, error := some (msg.getD "Login failed")
         tokenData := none }, false)

/-!
## Single-flight refresh machine

`refreshAccessToken` under JavaScript's single-threaded event loop, for `N`
concurrent callers holding a refresh token.  Execution between suspension
points is atomic.  A caller entering the function runs synchronously up to its
first `await`: with a `null` in-flight promise it launches
`performTokenRefresh()` (one network call), publishes the promise in
`this.refreshPromise` and awaits it (the `owner`, who will run the `finally`);
with a non-`null` promise it returns — and its caller awaits — that same
promise (a `joined` caller).  The network operation later settles with an
outcome; each caller's `await` then resumes in some order: the owner's resume
runs `finally { this.refreshPromise = null }`, and every caller observes the
settled outcome. -/

/-- Program counter of one caller of `refreshAccessToken`.  Outcome `true`
models resolution, `false` rejection. -/
inductive CallerStatus where
  | idle
  | owner
  | joined
  | doneOwner (r : Bool)
  | doneJoined (r : Bool)
deriving Repr, DecidableEq

/-- The outcome a finished caller observed, if finished. -/
def CallerStatus.outcome : CallerStatus → Option Bool
  | .doneOwner r => some r
  | .doneJoined r => some r
  | _ => none

/-- Whether this caller's `refreshAccessToken` call has returned or thrown. -/
def CallerStatus.isDone (s : CallerStatus) : Bool := s.outcome.isSome

/-- Configuration of the refresh coordinator: `marker` is
`this.refreshPromise !== null`, `calls` counts network refresh calls started,
`settled` is the outcome of the in-flight operation once it settles, and
`status c` is caller `c`'s program counter. -/
structure SFConfig where
  marker : Bool
  calls : Nat
  settled : Option Bool
  status : Nat → CallerStatus

/-- Initial configuration: no in-flight promise, no calls, all callers idle. -/
def sfInit : SFConfig :=
  { marker := false, calls := 0, settled := none, status := fun _ => .idle }

/-- Point update of a caller's program counter. -/
def setStatus (f : Nat → CallerStatus) (c : Nat) (v : CallerStatus) :
    Nat → CallerStatus :=
  fun c' => if c' = c then v else f c'

/-- Atomic events of the event loop relevant to the refresh coordinator. -/
inductive SFEvent where
  | start (c : Nat)
  | settle (r : Bool)
  | resume (c : Nat)
deriving Repr, DecidableEq

/-- One atomic step; `none` means the event is not enabled.
`start c`: caller `c` enters `refreshAccessToken`; with no in-flight promise
it launches the network refresh and becomes the owner, otherwise it joins the
existing promise.  `settle r`: the in-flight, not-yet-settled network
operation completes with outcome `r`.  `resume c`: caller `c`'s `await` of the
settled promise resumes; the owner's resume also runs the `finally` that nulls
`this.refreshPromise`. -/
def sfStep (N : Nat) (cfg : SFConfig) : SFEvent → Option SFConfig
  | .start c =>
    if c < N ∧ cfg.status c = .idle then
      if cfg.marker then
        some { cfg with status := setStatus cfg.status c .joined }
      else
        some { cfg with
                marker := true
                calls := cfg.calls + 1
                status := setStatus cfg.status c .owner }
    else none
  | .settle r =>
    if cfg.marker ∧ cfg.settled = none then
      some { cfg with settled := some r }
    else none
  | .resume c =>
    match cfg.settled with
    | none => none
    | some r =>
      if c < N then
        match cfg.status c with
        | .owner =>
          some { cfg with
                  marker := false
                  status := setStatus cfg.status c (.doneOwner r) }
        | .joined => some { cfg with status := setStatus cfg.status c (.doneJoined r) }
        | _ => none
      else none

/-- Run a list of events from a configuration. -/
def sfRun (N : Nat) (cfg : SFConfig) : List SFEvent → Option SFConfig
  | [] => some cfg
  | e :: es =>
    match sfStep N cfg e with
    | none => none
    | some cfg' => sfRun N cfg' es

/-- Whether an event list contains a `start` event. -/
def hasStart : List SFEvent → Bool
  | [] => false
  | .start _ :: _ => true
  | _ :: es => hasStart es

/-- Concurrency hypothesis of the single-flight claim: every caller starts
while the refresh is still in flight, i.e. no `start` event occurs after the
`settle` event. -/
def startsBeforeSettle : List SFEvent → Bool
  | [] => true
  | .settle _ :: es => !hasStart es
  | _ :: es => startsBeforeSettle es

/-! ## Concrete inputs used by counterexamples and witnesses -/

/-- A held token with a refresh token and no expiry. -/
def tdR : TokenData := { accessToken := "A", refreshToken := some "R", expiresAt := none }

/-- A held token with no refresh token. -/
def tdNoR : TokenData := { accessToken := "A", refreshToken := none, expiresAt := none }

/-- A token whose `expiresAt` is exactly the epoch `0`. -/
def tdZ : TokenData := { accessToken := "a", refreshToken := none, expiresAt := some 0 }

/-- Another token record, distinct from `tdR`. -/
def tdB : TokenData := { accessToken := "B", refreshToken := none, expiresAt := some 5 }

/-- A 401 response with no rotation headers. -/
def resp401 : HttpResponse :=
  { status := 401, xAccessToken := none, xRefreshToken := none, xExpiresAt := none }

/-- A 200 response carrying `X-Access-Token: T2`. -/
def resp200T2 : HttpResponse :=
  { status := 200, xAccessToken := some "T2", xRefreshToken := none, xExpiresAt := none }

/-- A 200 response with no rotation headers. -/
def resp200 : HttpResponse :=
  { status := 200, xAccessToken := none, xRefreshToken := none, xExpiresAt := none }

/-- A refresh body granting access token `N` and no new refresh token. -/
def bodyN : RefreshBody := { accessToken := "N", refreshToken := none, expiresAt := none }

/-- Environment: first request send answers 401, the retry answers 200 with
`X-Access-Token: T2`; refresh calls succeed with `bodyN`. -/
def envRetry : FetchEnv :=
  { now := 0
    response := fun n => if n == 0 then resp401 else resp200T2
    refresh := fun _ => .ok bodyN }

/-- Environment: every request send answers 200 with `X-Access-Token: T2`;
refresh calls fail. -/
def envT2 : FetchEnv :=
  { now := 0, response := fun _ => resp200T2, refresh := fun _ => .err }

/-- Environment: every request send answers a plain 200; refresh calls fail. -/
def envPlain : FetchEnv :=
  { now := 0, response := fun _ => resp200, refresh := fun _ => .err }

/-- A populated session record. -/
def sessRec : SessionRecord :=
  { user := some "u", isAuthenticated := true, isLoading := false, error := none }

/-- Local state before logout: token in memory, token persisted, session persisted. -/
def stFull : ExtensionLocalState :=
  { memTokens := some tdNoR, localStore := some tdNoR, syncSession := some sessRec }

/-- A token with a refresh token that is already expired at clock 0. -/
def tdExp : TokenData := { accessToken := "A", refreshToken := some "R", expiresAt := some 1 }

/-- Two concurrent callers: both start, the refresh settles successfully,
then both resume. -/
def sfWitnessTrace : List SFEvent :=
  [.start 0, .start 1, .settle true, .resume 0, .resume 1]

/-- The configuration `sfWitnessTrace` reaches from `sfInit` with two callers. -/
def sfWitnessCfg : SFConfig :=
  { marker := false, calls := 1, settled := some true
    status := setStatus (setStatus (setStatus (setStatus (fun _ => .idle)
      0 .owner) 1 .joined) 0 (.doneOwner true)) 1 (.doneJoined true) }

/-- Inductive invariant of the single-flight machine, for traces whose starts
all precede the settle event.  `marker` is set exactly while an owner exists,
there is at most one owner, nobody finishes before the operation settles,
every finished caller observed the settled outcome, any active caller implies
a network call was made, and no network call has been made while the
coordinator is fully quiescent. -/
structure SFInv (N : Nat) (cfg : SFConfig) : Prop where
  callsLe : cfg.calls ≤ 1
  markerOwner : cfg.marker = true ↔ ∃ c, c < N ∧ cfg.status c = .owner
  ownerUnique : ∀ c c', cfg.status c = .owner → cfg.status c' = .owner → c = c'
  noneNotDone : cfg.settled = none → ∀ c, (cfg.status c).isDone = false
  doneSettled : ∀ c r, (cfg.status c).outcome = some r → cfg.settled = some r
  activeCalls : ∀ c, c < N → cfg.status c ≠ .idle → 1 ≤ cfg.calls
  zeroCalls : cfg.marker = false → cfg.settled = none → cfg.calls = 0
  outOfRange : ∀ c, N ≤ c → cfg.status c = .idle

/-! ## Theorems -/

/-- A token that is not (treated as) expired makes the proactive stage a
no-op. -/
theorem proactiveStage_not_expired (env : FetchEnv) (skipAuth : Bool)
    (mem0 : Option TokenData) (h : isTokenExpired env.now mem0 = false) :
    proactiveStage env skipAuth mem0 = (mem0, 0) := by
  simp [proactiveStage, h]

/-- `skipAuth` always makes the proactive stage a no-op. -/
theorem proactiveStage_skipAuth (env : FetchEnv) (mem0 : Option TokenData) :
    proactiveStage env true mem0 = (mem0, 0) := by
  simp [proactiveStage]

/-- An expired refreshable token whose refresh call fails: the proactive stage
clears the in-memory token and counts one network refresh call. -/
theorem proactiveStage_expired_err (env : FetchEnv) (td : TokenData)
    (hexp : isTokenExpired env.now (some td) = true)
    (hrt : strTruthy td.refreshToken = true)
    (hfail : env.refresh 0 = .err) :
    proactiveStage env false (some td) = (none, 1) := by
  simp [proactiveStage, refreshAccessToken, performTokenRefresh, optRefreshToken,
    hexp, hrt, hfail]

/-- C2: reactive 401 handling of `fetch` for a held, not-yet-expired token.
With a truthy refresh token and a 401 first response: (1) a successful
refresh followed by a non-401 retry yields that retried response, the
refreshed token in the cache, exactly two request sends — the retry carrying
the new bearer token — and exactly one refresh call; (2) a successful refresh
followed by a still-401 retry fails with `Authentication required`, clears
tokens, and makes exactly two request sends and one refresh call; (3) a
failed refresh fails with `Authentication required`, clears tokens, with one
request send and one refresh call; (4) with `skipRetry`, no refresh is
attempted, tokens are cleared immediately and the call fails with
`Authentication required`; (5) with no (truthy) refresh token held, likewise. -/
theorem fetch_reactive_401_handling (env : FetchEnv) (td : TokenData)
    (hrt : strTruthy td.refreshToken = true)
    (hexp : isTokenExpired env.now (some td) = false)
    (h401 : (env.response 0).status = 401) :
    (∀ body, env.refresh 0 = .ok body → body.accessToken ≠ "" →
      (env.response 1).status ≠ 401 →
      edgeFetch env false false (some td) =
        { outcome := .ok (env.response 1)
          mem := some (mergeRefreshedToken body (some td))
          sentAuth := [attachAuth false (some td) (some td),
                       some ("Bearer " ++ body.accessToken)]
          refreshCalls := 1 }) ∧
    (∀ body, env.refresh 0 = .ok body → (env.response 1).status = 401 →
      (edgeFetch env false false (some td)).outcome = .authRequired ∧
      (edgeFetch env false false (some td)).mem = none ∧
      (edgeFetch env false false (some td)).sentAuth.length = 2 ∧
      (edgeFetch env false false (some td)).refreshCalls = 1) ∧
    (env.refresh 0 = .err →
      edgeFetch env false false (some td) =
        { outcome := .authRequired, mem := none
          sentAuth := [attachAuth false (some td) (some td)], refreshCalls := 1 }) ∧
    (edgeFetch env false true (some td) =
      { outcome := .authRequired, mem := none
        sentAuth := [attachAuth false (some td) (some td)], refreshCalls := 0 }) ∧
    (∀ td' : TokenData, strTruthy td'.refreshToken = false →
      isTokenExpired env.now (some td') = false →
      edgeFetch env false false (some td') =
        { outcome := .authRequired, mem := none
          sentAuth := [attachAuth false (some td') (some td')], refreshCalls := 0 }) := by
  have hpro := proactiveStage_not_expired env false (some td) hexp
  refine ⟨?_, ?_, ?_, ?_, ?_⟩
  · intro body hb hne hretry
    have hne' : (body.accessToken == "") = false := by simpa using hne
    have hretry' : ((env.response 1).status != 401) = true := by simpa using hretry
    have hb2 : strTruthy (some body.accessToken) = true := by
      simp [strTruthy, hne']
    simp [edgeFetch, hpro, h401, optRefreshToken, hrt, refreshAccessToken,
      performTokenRefresh, saveTokenData, hb, optAccessToken, mergeRefreshedToken,
      hb2, hretry']
  · intro body hb hretry
    simp [edgeFetch, hpro, h401, optRefreshToken, hrt, refreshAccessToken,
      performTokenRefresh, saveTokenData, hb, hretry]
  · intro hfail
    simp [edgeFetch, hpro, h401, optRefreshToken, hrt, refreshAccessToken,
      performTokenRefresh, hfail]
  · simp [edgeFetch, hpro, h401]
  · intro td' hrt' hexp'
    have hpro' := proactiveStage_not_expired env false (some td') hexp'
    simp [edgeFetch, hpro', h401, optRefreshToken, hrt']

/-- Witness for C2 at the concrete 401-then-retry environment. -/
theorem fetch_reactive_401_handling_witness :
    edgeFetch envRetry false false (some tdR) =
      { outcome := .ok resp200T2
        mem := some (mergeRefreshedToken bodyN (some tdR))
        sentAuth := [attachAuth false (some tdR) (some tdR), some ("Bearer " ++ "N")]
        refreshCalls := 1 } := by
  have h := (fetch_reactive_401_handling envRetry tdR (by decide) (by decide)
    (by decide)).1 bodyN rfl (by decide) (by decide)
  exact h

/-- C3 counterexample: the claim says a `skipAuth=true` request never
triggers a refresh and never attaches a bearer header on any send of the
logical request.  But `skipAuth` only bypasses the proactive block (lines
215–229); the reactive 401 branch (line 239) tests `skipRetry`, not
`skipAuth`.  With `skipAuth=true`, a held refresh token and a 401 first
response, the code performs one refresh network call and resends the request
with `Authorization: Bearer N`. -/
theorem skipAuth_retry_counterexample :
    (edgeFetch envRetry true false (some tdR)).refreshCalls = 1 ∧
    (edgeFetch envRetry true false (some tdR)).sentAuth = [none, some "Bearer N"] := by
  constructor <;> rfl

/-- C3 as amended: `skipAuth=true` suppresses the proactive refresh and the
bearer header on the initial send, and a non-401 response still has its
rotation headers inspected and written through the token cache; but the
reactive 401 refresh-and-retry is governed by `skipRetry` alone — on a 401
first response with a held truthy refresh token and `skipRetry=false`, a
refresh network call is still made (and the retry may carry a bearer
header). -/
theorem skipAuth_behavior (env : FetchEnv) (mem0 : Option TokenData) (skipRetry : Bool) :
    proactiveStage env true mem0 = (mem0, 0) ∧
    (edgeFetch env true skipRetry mem0).sentAuth.head? = some none ∧
    ((env.response 0).status ≠ 401 →
      edgeFetch env true skipRetry mem0 =
        { outcome := .ok (env.response 0), mem := applyRotation (env.response 0) mem0
          sentAuth := [none], refreshCalls := 0 }) ∧
    ((env.response 0).status = 401 → skipRetry = false →
      strTruthy (optRefreshToken mem0) = true →
      (edgeFetch env true skipRetry mem0).refreshCalls = 1) := by
  have hpro := proactiveStage_skipAuth env mem0
  have hauth : attachAuth true mem0 mem0 = none := by simp [attachAuth]
  refine ⟨hpro, ?_, ?_, ?_⟩
  · simp only [edgeFetch, hpro, hauth]
    split
    · split
      · simp
      · split <;> simp
    · split <;> simp
  · intro hne
    have hne' : ((env.response 0).status == 401) = false := by simpa using hne
    simp [edgeFetch, hpro, hauth, hne']
  · intro h401 hsr hrt
    subst hsr
    simp only [edgeFetch, hpro, hauth, h401, refreshAccessToken, hrt]
    rw [if_pos (by decide : ((401 == 401 && !false && true) = true))]
    cases hp : (performTokenRefresh (env.refresh 0) mem0).1
    · rw [if_neg (by simp)]
      split <;> rfl
    · rw [if_pos (by simp)]
      simp

/-- Witness for C3's amended theorem: the refresh-still-happens conjunct at
the 401-retry environment, and the no-bearer plus rotation conjuncts at a
plain 200-with-rotation environment. -/
theorem skipAuth_behavior_witness :
    (edgeFetch envRetry true false (some tdR)).sentAuth.head? = some none ∧
    (edgeFetch envRetry true false (some tdR)).refreshCalls = 1 ∧
    edgeFetch envT2 true false (some tdR) =
      { outcome := .ok resp200T2, mem := applyRotation resp200T2 (some tdR)
        sentAuth := [none], refreshCalls := 0 } := by
  refine ⟨(skipAuth_behavior envRetry (some tdR) false).2.1, ?_, ?_⟩
  · exact (skipAuth_behavior envRetry (some tdR) false).2.2.2 (by decide) rfl (by decide)
  · exact (skipAuth_behavior envT2 (some tdR) false).2.2.1 (by decide)

/-- C5 counterexample: the claim says rotation-header inspection applies to
every successful response `fetch` returns, including one obtained via the
one-shot 401 retry.  But the retry path returns `retryResponse` directly
(line 257), before the inspection at lines 271–282: with a 401 first
response, a successful refresh and a 200 retry carrying
`X-Access-Token: T2`, the cache ends up holding the refresh-produced token
`N`, not `T2`. -/
theorem rotation_retry_counterexample :
    (edgeFetch envRetry false false (some tdR)).outcome = .ok resp200T2 ∧
    resp200T2.xAccessToken = some "T2" ∧
    (edgeFetch envRetry false false (some tdR)).mem =
      some (mergeRefreshedToken bodyN (some tdR)) ∧
    optAccessToken (edgeFetch envRetry false false (some tdR)).mem ≠ some "T2" := by
  refine ⟨rfl, rfl, rfl, by decide⟩

/-- C5 as amended: rotation applies to every successful response returned on
the direct (non-retry) path — the access token always replaces, the refresh
token is replaced only when `X-Refresh-Token` is supplied (JS-truthy) and
retained otherwise, the expiry is taken from `X-Token-Expires-At` when
present and absent otherwise, and a subsequent request attaches the cached
bearer token; a successful response obtained via the one-shot 401 retry is
returned without header inspection, the cache keeping the refresh-produced
token. -/
theorem rotation_direct_path_only :
    (∀ (resp : HttpResponse) (mem : Option TokenData),
      (strTruthy resp.xAccessToken = true →
        applyRotation resp mem =
          some { accessToken := resp.xAccessToken.getD ""
                 refreshToken := jsOrStr resp.xRefreshToken (optRefreshToken mem)
                 expiresAt := resp.xExpiresAt }) ∧
      (strTruthy resp.xAccessToken = false → applyRotation resp mem = mem)) ∧
    (∀ (env : FetchEnv) (mem0 : Option TokenData) (skipAuth skipRetry : Bool),
      isTokenExpired env.now mem0 = false →
      (env.response 0).status ≠ 401 →
      edgeFetch env skipAuth skipRetry mem0 =
        { outcome := .ok (env.response 0)
          mem := applyRotation (env.response 0) mem0
          sentAuth := [attachAuth skipAuth mem0 mem0]
          refreshCalls := 0 }) ∧
    (∀ (env : FetchEnv) (td : TokenData) (skipRetry : Bool),
      isTokenExpired env.now (some td) = false →
      td.accessToken ≠ "" →
      (edgeFetch env false skipRetry (some td)).sentAuth.head? =
        some (some ("Bearer " ++ td.accessToken))) ∧
    (∀ (env : FetchEnv) (td : TokenData) (body : RefreshBody),
      strTruthy td.refreshToken = true →
      isTokenExpired env.now (some td) = false →
      (env.response 0).status = 401 →
      env.refresh 0 = .ok body →
      (env.response 1).status ≠ 401 →
      (edgeFetch env false false (some td)).mem =
        some (mergeRefreshedToken body (some td))) := by
  refine ⟨?_, ?_, ?_, ?_⟩
  · intro resp mem
    constructor
    · intro h
      simp [applyRotation, saveTokenData, h]
    · intro h
      simp [applyRotation, h]
  · intro env mem0 skipAuth skipRetry hexp hne
    have hpro := proactiveStage_not_expired env skipAuth mem0 hexp
    have hne' : ((env.response 0).status == 401) = false := by simpa using hne
    simp [edgeFetch, hpro, hne']
  · intro env td skipRetry hexp hne
    have hpro := proactiveStage_not_expired env false (some td) hexp
    have hauth : attachAuth false (some td) (some td) =
        some ("Bearer " ++ td.accessToken) := by
      have hne' : (td.accessToken == "") = false := by simpa using hne
      simp [attachAuth, optAccessToken, strTruthy, hne']
    simp only [edgeFetch, hpro, hauth]
    split
    · split
      · simp
      · split <;> simp
    · split <;> simp
  · intro env td body hrt hexp h401 hb hretry
    have hpro := proactiveStage_not_expired env false (some td) hexp
    have hretry' : ((env.response 1).status != 401) = true := by simpa using hretry
    simp [edgeFetch, hpro, h401, optRefreshToken, hrt, refreshAccessToken,
      performTokenRefresh, saveTokenData, hb, hretry']

/-- Witness for C5's amended theorem: rotation at a concrete 200-with-header
response and environment, the attached bearer on a subsequent request, and
the bypassed inspection on the concrete retry environment. -/
theorem rotation_direct_path_only_witness :
    applyRotation resp200T2 (some tdR) =
      some { accessToken := "T2", refreshToken := some "R", expiresAt := none } ∧
    edgeFetch envT2 false false (some tdR) =
      { outcome := .ok resp200T2, mem := applyRotation resp200T2 (some tdR)
        sentAuth := [attachAuth false (some tdR) (some tdR)], refreshCalls := 0 } ∧
    (edgeFetch envT2 false false (some tdR)).sentAuth.head? =
      some (some ("Bearer " ++ tdR.accessToken)) ∧
    (edgeFetch envRetry false false (some tdR)).mem =
      some (mergeRefreshedToken bodyN (some tdR)) := by
  refine ⟨?_, ?_, ?_, ?_⟩
  · exact (rotation_direct_path_only.1 resp200T2 (some tdR)).1 (by decide)
  · exact rotation_direct_path_only.2.1 envT2 (some tdR) false false (by decide) (by decide)
  · exact rotation_direct_path_only.2.2.1 envT2 tdR false (by decide) (by decide)
  · exact rotation_direct_path_only.2.2.2 envRetry tdR bodyN (by decide) (by decide)
      (by decide) rfl (by decide)

/-- C6: fail-open on proactive refresh failure.  With a held token that is
treated as expired, a truthy refresh token and a failing refresh call, the
proactive stage clears the token data (one refresh network call), and the
original request is still sent — with no `Authorization` header — rather
than the call aborting with the refresh error; on a non-401 response the
call succeeds normally. -/
theorem fail_open_on_refresh_failure (env : FetchEnv) (td : TokenData) (skipRetry : Bool)
    (hexp : isTokenExpired env.now (some td) = true)
    (hrt : strTruthy td.refreshToken = true)
    (hfail : env.refresh 0 = .err) :
    proactiveStage env false (some td) = (none, 1) ∧
    (edgeFetch env false skipRetry (some td)).sentAuth = [none] ∧
    (edgeFetch env false skipRetry (some td)).refreshCalls = 1 ∧
    ((env.response 0).status ≠ 401 →
      (edgeFetch env false skipRetry (some td)).outcome = .ok (env.response 0)) := by
  have hpro := proactiveStage_expired_err env td hexp hrt hfail
  have hauth : attachAuth false (some td) (none : Option TokenData) = none := by
    simp [attachAuth, optAccessToken, strTruthy]
  have hmain : ∀ P : FetchResult → Prop,
      P (if (env.response 0).status == 401 then
          { outcome := .authRequired, mem := none, sentAuth := [(none : Option String)]
            refreshCalls := 1 }
        else
          { outcome := .ok (env.response 0), mem := applyRotation (env.response 0) none
            sentAuth := [none], refreshCalls := 1 }) →
      P (edgeFetch env false skipRetry (some td)) := by
    intro P h
    simp only [edgeFetch, hpro, hauth, optRefreshToken, strTruthy]
    simpa using h
  refine ⟨hpro, ?_, ?_, ?_⟩
  · apply hmain (fun r => r.sentAuth = [none])
    split <;> rfl
  · apply hmain (fun r => r.refreshCalls = 1)
    split <;> rfl
  · intro hne
    have hne' : ((env.response 0).status == 401) = false := by simpa using hne
    apply hmain (fun r => r.outcome = .ok (env.response 0))
    rw [hne']
    rfl

/-- Witness for C6 at the plain-200 environment with a failing refresh and an
expired token. -/
theorem fail_open_on_refresh_failure_witness :
    proactiveStage envPlain false (some tdExp) = (none, 1) ∧
    (edgeFetch envPlain false false (some tdExp)).sentAuth = [none] ∧
    (edgeFetch envPlain false false (some tdExp)).refreshCalls = 1 ∧
    (edgeFetch envPlain false false (some tdExp)).outcome = .ok resp200 := by
  have h := fail_open_on_refresh_failure envPlain tdExp false (by decide) (by decide) rfl
  exact ⟨h.1, h.2.1, h.2.2.1, h.2.2.2 (by decide)⟩

/-- C4: the claim says `isAuthenticated()` returns `false` when no token data
is held.  The code returns `true`: with `tokenData === null`, optional
chaining makes `this.tokenData?.accessToken` evaluate to `undefined`, and
`undefined !== null` is `true`, while `isTokenExpired()` is `false` — so the
conjunction is `true` for every value of the clock.  This contradicts the
spec (`an access token is present and not expired`) and the module's own test
mock, which reports `isAuthenticated = false` alongside `getTokenData = null`;
the `!== null` comparison can never be `false` and is plainly a slip. -/
theorem isAuthenticated_no_token_bug :
    ∀ now : Int, isAuthenticated now none = true := by
  intro now
  rfl

/-- C7 counterexample: the claim says a failed store write surfaces the error
to the caller.  In the code the write failure is caught and only logged, so
`saveTokenData` resolves normally (`threw = false`) even though the store
write failed; the prior in-memory value is retained. -/
theorem saveTokenData_swallows_error :
    (saveTokenData false (some tdR) tdB).2 = false ∧
    (saveTokenData false (some tdR) tdB).1 = some tdR := by
  constructor <;> rfl

/-- C7 as amended: `saveTokenData` updates memory exactly when the store write
succeeds; on a failed store write the prior in-memory value is unchanged and
the error is logged and swallowed — the call resolves normally rather than
surfacing the error. -/
theorem saveTokenData_memory_update :
    ∀ (mem : Option TokenData) (td : TokenData),
      saveTokenData false mem td = (mem, false) ∧
      saveTokenData true mem td = (some td, false) := by
  intro mem td
  constructor <;> rfl

/-- C8 counterexample: a token whose `expiresAt` is exactly `0` is present and
far past `now - 60s`, so the claim reports it expired; the code's JavaScript
truthiness test `!this.tokenData?.expiresAt` treats the number `0` as absent
and returns `false`. -/
theorem isTokenExpired_zero_counterexample :
    isTokenExpired 1000 (some tdZ) = false ∧
    tdZ.expiresAt = some 0 ∧ ((0 : Int) - 60000 ≤ 1000) := by
  refine ⟨rfl, rfl, by decide⟩

/-- C8 as amended: `isTokenExpired()` is true iff `expiresAt` is present
**and nonzero** and `now >= expiresAt - 60000`; the claim's three instances
hold for every nonnegative clock: `expiresAt = now + 30s` is reported
expired, `expiresAt = now + 90s` is not, and an absent `expiresAt` never is. -/
theorem isTokenExpired_characterization :
    (∀ (now : Int) (td? : Option TokenData),
      isTokenExpired now td? = true ↔
        ∃ td e, td? = some td ∧ td.expiresAt = some e ∧ e ≠ 0 ∧ e - 60000 ≤ now) ∧
    (∀ (now : Int) (a : String) (r : Option String), 0 ≤ now →
      isTokenExpired now
        (some { accessToken := a, refreshToken := r, expiresAt := some (now + 30000) }) = true ∧
      isTokenExpired now
        (some { accessToken := a, refreshToken := r, expiresAt := some (now + 90000) }) = false ∧
      isTokenExpired now
        (some { accessToken := a, refreshToken := r, expiresAt := none }) = false) := by
  constructor
  · intro now td?
    constructor
    · intro h
      match td? with
      | none => simp [isTokenExpired] at h
      | some td =>
        match he : td.expiresAt with
        | none => simp [isTokenExpired, he] at h
        | some e =>
          simp only [isTokenExpired, he] at h
          by_cases hz : e = 0
          · simp [hz] at h
          · refine ⟨td, e, rfl, he, hz, ?_⟩
            have hb : (e == 0) = false := by simpa using hz
            rw [hb] at h
            simp only [if_false, Bool.false_eq_true] at h
            have := of_decide_eq_true h
            omega
    · rintro ⟨td, e, rfl, he, hz, hle⟩
      have hb : (e == 0) = false := by simpa using hz
      simp only [isTokenExpired, he, hb, if_false]
      exact decide_eq_true (by omega)
  · intro now a r h0
    refine ⟨?_, ?_, ?_⟩
    · have hz : (now + 30000 == (0 : Int)) = false := by
        simp only [beq_eq_false_iff_ne, ne_eq]
        omega
      simp only [isTokenExpired, hz, if_false]
      exact decide_eq_true (by omega)
    · have hz : (now + 90000 == (0 : Int)) = false := by
        simp only [beq_eq_false_iff_ne, ne_eq]
        omega
      simp only [isTokenExpired, hz, if_false]
      exact decide_eq_false (by omega)
    · rfl

/-- Witness for C8's amended theorem at `now = 5`. -/
theorem isTokenExpired_characterization_witness :
    isTokenExpired 5
      (some { accessToken := "a", refreshToken := none, expiresAt := some (5 + 30000) }) = true ∧
    isTokenExpired 5
      (some { accessToken := "a", refreshToken := none, expiresAt := some (5 + 90000) }) = false := by
  have h := isTokenExpired_characterization.2 5 "a" none (by decide)
  exact ⟨h.1, h.2.1⟩

/-- C9 counterexample: the claim says every `logout()` call leaves all local
session and token state cleared.  `EdgeAuthFlow.logout` clears the persisted
stores (`chrome.storage.local.clear()`, `sync.remove("edgeSession")`) but
never clears the fetch client's in-memory token cache: after a logout whose
server call answered a plain 200, the in-memory token is still held, and a
subsequent request would still attach it. -/
theorem logout_memory_cache_counterexample :
    (edgeAuthFlowLogout envPlain stFull).1.memTokens = some tdNoR ∧
    (edgeAuthFlowLogout envPlain stFull).1.localStore = none := by
  constructor <;> rfl

/-- C9 as amended: `logout()` never throws — the server-side call's outcome,
success or failure, is swallowed — and on every call, including an immediately
repeated one with any server outcome, the persisted token store and the
persisted session record are cleared; the fetch client's in-memory token
cache, however, is not cleared by logout. -/
theorem logout_idempotent_no_throw :
    ∀ (env env' : FetchEnv) (st : ExtensionLocalState),
      (edgeAuthFlowLogout env st).2 = false ∧
      (edgeAuthFlowLogout env st).1.localStore = none ∧
      (edgeAuthFlowLogout env st).1.syncSession = none ∧
      (edgeAuthFlowLogout env' (edgeAuthFlowLogout env st).1).2 = false ∧
      (edgeAuthFlowLogout env' (edgeAuthFlowLogout env st).1).1.localStore = none ∧
      (edgeAuthFlowLogout env' (edgeAuthFlowLogout env st).1).1.syncSession = none := by
  intro env env' st
  exact ⟨rfl, rfl, rfl, rfl, rfl, rfl⟩

/-- C10: `EdgeAuthFlow.login` never rejects.  Its `try`/`catch` converts every
thrown value into a resolved `{ success: false, error: message }` result
(using the thrown `Error`'s message, or `"Login failed"` for a non-`Error`
value, and `"Unsupported platform"` when neither platform probe matched);
a resolved sub-flow result is passed through unchanged, so `success = true`
occurs only when the underlying flow itself resolved successfully. -/
theorem login_never_rejects (p : Platform) (sub : SubFlowOutcome) :
    (edgeAuthFlowLogin p sub).2 = false ∧
    (∀ msg, sub = .rejects msg → p ≠ .other →
      (edgeAuthFlowLogin p sub).1 =
        { success := false, user := none, error := some (msg.getD "Login failed")
          tokenData := none }) ∧
    (p = .other →
      (edgeAuthFlowLogin p sub).1 =
        { success := false, user := none, error := some "Unsupported platform"
          tokenData := none }) ∧
    (∀ r, sub = .resolves r → p ≠ .other → (edgeAuthFlowLogin p sub).1 = r) ∧
    ((edgeAuthFlowLogin p sub).1.success = true →
      ∃ r, sub = .resolves r ∧ r.success = true ∧ p ≠ .other) := by
  cases p <;> cases sub <;>
    simp [edgeAuthFlowLogin]

/-! ### Single-flight machine lemmas (for C1) -/

/-- A trace starting with a `start` event contains a start. -/
theorem hasStart_cons_start (c : Nat) (es : List SFEvent) :
    hasStart (.start c :: es) = true := rfl

/-- `hasStart` ignores a leading `settle`. -/
theorem hasStart_cons_settle (r : Bool) (es : List SFEvent) :
    hasStart (.settle r :: es) = hasStart es := rfl

/-- `hasStart` ignores a leading `resume`. -/
theorem hasStart_cons_resume (c : Nat) (es : List SFEvent) :
    hasStart (.resume c :: es) = hasStart es := rfl

/-- `startsBeforeSettle` passes over a leading `start`. -/
theorem startsBeforeSettle_cons_start (c : Nat) (es : List SFEvent) :
    startsBeforeSettle (.start c :: es) = startsBeforeSettle es := rfl

/-- At the `settle` event, `startsBeforeSettle` forbids later starts. -/
theorem startsBeforeSettle_cons_settle (r : Bool) (es : List SFEvent) :
    startsBeforeSettle (.settle r :: es) = !hasStart es := rfl

/-- `startsBeforeSettle` passes over a leading `resume`. -/
theorem startsBeforeSettle_cons_resume (c : Nat) (es : List SFEvent) :
    startsBeforeSettle (.resume c :: es) = startsBeforeSettle es := rfl

/-- A `start` step leaves `settled` unchanged. -/
theorem sfStep_start_settled {N : Nat} {cfg cfg₁ : SFConfig} {c : Nat}
    (h : sfStep N cfg (.start c) = some cfg₁) : cfg₁.settled = cfg.settled := by
  simp only [sfStep] at h
  split_ifs at h with h1 h2
  · injection h with h
    subst h
    rfl
  · injection h with h
    subst h
    rfl

/-- A `settle r` step sets `settled` to `some r` and requires it was `none`. -/
theorem sfStep_settle_shape {N : Nat} {cfg cfg₁ : SFConfig} {r : Bool}
    (h : sfStep N cfg (.settle r) = some cfg₁) :
    cfg₁.settled = some r ∧ cfg.settled = none := by
  simp only [sfStep] at h
  split_ifs at h with h1
  · injection h with h
    subst h
    exact ⟨rfl, h1.2⟩

/-- A `resume` step leaves `settled` unchanged and requires it settled. -/
theorem sfStep_resume_settled {N : Nat} {cfg cfg₁ : SFConfig} {c : Nat}
    (h : sfStep N cfg (.resume c) = some cfg₁) :
    cfg₁.settled = cfg.settled ∧ cfg.settled ≠ none := by
  simp only [sfStep] at h
  cases hsett : cfg.settled with
  | none =>
    rw [hsett] at h
    exact Option.noConfusion h
  | some r =>
    rw [hsett] at h
    split_ifs at h with hcN
    · cases hst : cfg.status c with
      | idle =>
        rw [hst] at h
        exact Option.noConfusion h
      | doneOwner r' =>
        rw [hst] at h
        exact Option.noConfusion h
      | doneJoined r' =>
        rw [hst] at h
        exact Option.noConfusion h
      | owner =>
        rw [hst] at h
        injection h with h
        subst h
        exact ⟨rfl, by simp⟩
      | joined =>
        rw [hst] at h
        injection h with h
        subst h
        exact ⟨rfl, by simp⟩

/-- One step preserves the single-flight invariant, provided starts only
happen while the operation has not yet settled. -/
theorem sfStep_inv {N : Nat} {cfg cfg₁ : SFConfig} {e : SFEvent}
    (hstep : sfStep N cfg e = some cfg₁) (hinv : SFInv N cfg)
    (hstart : ∀ c, e = .start c → cfg.settled = none) : SFInv N cfg₁ := by
  cases e with
  | start c =>
    have hsettled : cfg.settled = none := hstart c rfl
    simp only [sfStep] at hstep
    split_ifs at hstep with h1 h2
    · -- join an in-flight refresh
      injection hstep with hstep
      subst hstep
      refine ⟨hinv.callsLe, ?_, ?_, ?_, ?_, ?_, ?_, ?_⟩
      · constructor
        · intro _
          obtain ⟨c₀, hc₀N, hc₀⟩ := hinv.markerOwner.mp h2
          have hne : c₀ ≠ c := by
            intro hEq
            rw [hEq, h1.2] at hc₀
            exact absurd hc₀ (by decide)
          refine ⟨c₀, hc₀N, ?_⟩
          show setStatus cfg.status c .joined c₀ = .owner
          simp only [setStatus, if_neg hne]
          exact hc₀
        · intro _
          exact h2
      · intro a b ha hb
        have ha' : setStatus cfg.status c .joined a = .owner := ha
        have hb' : setStatus cfg.status c .joined b = .owner := hb
        by_cases hac : a = c
        · subst hac
          simp [setStatus] at ha'
        · by_cases hbc : b = c
          · subst hbc
            simp [setStatus] at hb'
          · simp only [setStatus, if_neg hac] at ha'
            simp only [setStatus, if_neg hbc] at hb'
            exact hinv.ownerUnique a b ha' hb'
      · intro hs a
        show (setStatus cfg.status c .joined a).isDone = false
        by_cases hac : a = c
        · subst hac
          simp [setStatus, CallerStatus.isDone, CallerStatus.outcome]
        · simp only [setStatus, if_neg hac]
          exact hinv.noneNotDone hs a
      · intro a r ha
        have ha' : (setStatus cfg.status c .joined a).outcome = some r := ha
        by_cases hac : a = c
        · subst hac
          simp [setStatus, CallerStatus.outcome] at ha'
        · simp only [setStatus, if_neg hac] at ha'
          exact hinv.doneSettled a r ha'
      · intro a haN hne
        obtain ⟨c₀, hc₀N, hc₀⟩ := hinv.markerOwner.mp h2
        refine hinv.activeCalls c₀ hc₀N ?_
        rw [hc₀]
        decide
      · intro hm _
        have hm' : cfg.marker = false := hm
        rw [hm'] at h2
        exact Bool.noConfusion h2
      · intro a haN
        have hac : a ≠ c := by
          have := h1.1
          omega
        show setStatus cfg.status c .joined a = .idle
        simp only [setStatus, if_neg hac]
        exact hinv.outOfRange a haN
    · -- become the owner: launch the network refresh
      injection hstep with hstep
      subst hstep
      have hmf : cfg.marker = false := by
        simpa using h2
      have hzero : cfg.calls = 0 := hinv.zeroCalls hmf hsettled
      have hnoOwner : ∀ x, cfg.status x ≠ .owner := by
        intro x hx
        have hxN : x < N := by
          by_contra hge
          have hidle := hinv.outOfRange x (by omega)
          rw [hidle] at hx
          exact absurd hx (by decide)
        have hmt := hinv.markerOwner.mpr ⟨x, hxN, hx⟩
        rw [hmf] at hmt
        exact Bool.noConfusion hmt
      refine ⟨?_, ?_, ?_, ?_, ?_, ?_, ?_, ?_⟩
      · show cfg.calls + 1 ≤ 1
        omega
      · constructor
        · intro _
          refine ⟨c, h1.1, ?_⟩
          show setStatus cfg.status c .owner c = .owner
          simp [setStatus]
        · intro _
          rfl
      · intro a b ha hb
        have ha' : setStatus cfg.status c .owner a = .owner := ha
        have hb' : setStatus cfg.status c .owner b = .owner := hb
        by_cases hac : a = c
        · by_cases hbc : b = c
          · rw [hac, hbc]
          · simp only [setStatus, if_neg hbc] at hb'
            exact absurd hb' (hnoOwner b)
        · simp only [setStatus, if_neg hac] at ha'
          exact absurd ha' (hnoOwner a)
      · intro hs a
        show (setStatus cfg.status c .owner a).isDone = false
        by_cases hac : a = c
        · subst hac
          simp [setStatus, CallerStatus.isDone, CallerStatus.outcome]
        · simp only [setStatus, if_neg hac]
          exact hinv.noneNotDone hsettled a
      · intro a r ha
        have ha' : (setStatus cfg.status c .owner a).outcome = some r := ha
        by_cases hac : a = c
        · subst hac
          simp [setStatus, CallerStatus.outcome] at ha'
        · simp only [setStatus, if_neg hac] at ha'
          have hnd := hinv.noneNotDone hsettled a
          simp only [CallerStatus.isDone] at hnd
          rw [ha'] at hnd
          simp at hnd
      · intro a haN hne
        show 1 ≤ cfg.calls + 1
        omega
      · intro hm _
        exact Bool.noConfusion (show true = false from hm)
      · intro a haN
        have hac : a ≠ c := by
          have := h1.1
          omega
        show setStatus cfg.status c .owner a = .idle
        simp only [setStatus, if_neg hac]
        exact hinv.outOfRange a haN
  | settle r =>
    simp only [sfStep] at hstep
    split_ifs at hstep with h1
    · injection hstep with hstep
      subst hstep
      refine ⟨hinv.callsLe, hinv.markerOwner, hinv.ownerUnique, ?_, ?_,
        hinv.activeCalls, ?_, hinv.outOfRange⟩
      · intro hs
        exact Option.noConfusion (show some r = none from hs)
      · intro a r' ha
        have ha' : (cfg.status a).outcome = some r' := ha
        have hnd := hinv.noneNotDone h1.2 a
        simp only [CallerStatus.isDone] at hnd
        rw [ha'] at hnd
        simp at hnd
      · intro _ hs
        exact Option.noConfusion (show some r = none from hs)
  | resume c =>
    simp only [sfStep] at hstep
    cases hsett : cfg.settled with
    | none =>
      rw [hsett] at hstep
      exact Option.noConfusion hstep
    | some r =>
      rw [hsett] at hstep
      split_ifs at hstep with hcN
      · cases hst : cfg.status c with
        | idle =>
          rw [hst] at hstep
          exact Option.noConfusion hstep
        | doneOwner r' =>
          rw [hst] at hstep
          exact Option.noConfusion hstep
        | doneJoined r' =>
          rw [hst] at hstep
          exact Option.noConfusion hstep
        | owner =>
          rw [hst] at hstep
          injection hstep with hstep
          subst hstep
          refine ⟨hinv.callsLe, ?_, ?_, ?_, ?_, ?_, ?_, ?_⟩
          · constructor
            · intro hm
              exact Bool.noConfusion (show false = true from hm)
            · rintro ⟨a, haN, ha⟩
              have ha' : setStatus cfg.status c (.doneOwner r) a = .owner := ha
              by_cases hac : a = c
              · subst hac
                simp [setStatus] at ha'
              · simp only [setStatus, if_neg hac] at ha'
                exact absurd (hinv.ownerUnique a c ha' hst) hac
          · intro a b ha hb
            have ha' : setStatus cfg.status c (.doneOwner r) a = .owner := ha
            by_cases hac : a = c
            · subst hac
              simp [setStatus] at ha'
            · simp only [setStatus, if_neg hac] at ha'
              exact absurd (hinv.ownerUnique a c ha' hst) hac
          · intro hs
            exact Option.noConfusion (show some r = none from hs)
          · intro a r' ha
            have ha' : (setStatus cfg.status c (.doneOwner r) a).outcome = some r' := ha
            show some r = some r'
            by_cases hac : a = c
            · subst hac
              simp [setStatus, CallerStatus.outcome] at ha'
              rw [ha']
            · simp only [setStatus, if_neg hac] at ha'
              rw [← hsett]
              exact hinv.doneSettled a r' ha'
          · intro a haN hne
            show 1 ≤ cfg.calls
            by_cases hac : a = c
            · refine hinv.activeCalls c hcN ?_
              rw [hst]
              decide
            · have hne' : setStatus cfg.status c (.doneOwner r) a ≠ .idle := hne
              simp only [setStatus, if_neg hac] at hne'
              exact hinv.activeCalls a haN hne'
          · intro _ hs
            exact Option.noConfusion (show some r = none from hs)
          · intro a haN
            have hac : a ≠ c := by omega
            show setStatus cfg.status c (.doneOwner r) a = .idle
            simp only [setStatus, if_neg hac]
            exact hinv.outOfRange a haN
        | joined =>
          rw [hst] at hstep
          injection hstep with hstep
          subst hstep
          refine ⟨hinv.callsLe, ?_, ?_, ?_, ?_, ?_, ?_, ?_⟩
          · constructor
            · intro hm
              have hm' : cfg.marker = true := hm
              obtain ⟨c₀, hc₀N, hc₀⟩ := hinv.markerOwner.mp hm'
              have hne : c₀ ≠ c := by
                intro hEq
                rw [hEq, hst] at hc₀
                exact absurd hc₀ (by decide)
              refine ⟨c₀, hc₀N, ?_⟩
              show setStatus cfg.status c (.doneJoined r) c₀ = .owner
              simp only [setStatus, if_neg hne]
              exact hc₀
            · rintro ⟨a, haN, ha⟩
              have ha' : setStatus cfg.status c (.doneJoined r) a = .owner := ha
              by_cases hac : a = c
              · subst hac
                simp [setStatus] at ha'
              · simp only [setStatus, if_neg hac] at ha'
                exact hinv.markerOwner.mpr ⟨a, haN, ha'⟩
          · intro a b ha hb
            have ha' : setStatus cfg.status c (.doneJoined r) a = .owner := ha
            have hb' : setStatus cfg.status c (.doneJoined r) b = .owner := hb
            by_cases hac : a = c
            · subst hac
              simp [setStatus] at ha'
            · by_cases hbc : b = c
              · subst hbc
                simp [setStatus] at hb'
              · simp only [setStatus, if_neg hac] at ha'
                simp only [setStatus, if_neg hbc] at hb'
                exact hinv.ownerUnique a b ha' hb'
          · intro hs
            exact Option.noConfusion (show some r = none from hs)
          · intro a r' ha
            have ha' : (setStatus cfg.status c (.doneJoined r) a).outcome = some r' := ha
            show some r = some r'
            by_cases hac : a = c
            · subst hac
              simp [setStatus, CallerStatus.outcome] at ha'
              rw [ha']
            · simp only [setStatus, if_neg hac] at ha'
              rw [← hsett]
              exact hinv.doneSettled a r' ha'
          · intro a haN hne
            show 1 ≤ cfg.calls
            by_cases hac : a = c
            · refine hinv.activeCalls c hcN ?_
              rw [hst]
              decide
            · have hne' : setStatus cfg.status c (.doneJoined r) a ≠ .idle := hne
              simp only [setStatus, if_neg hac] at hne'
              exact hinv.activeCalls a haN hne'
          · intro _ hs
            exact Option.noConfusion (show some r = none from hs)
          · intro a haN
            have hac : a ≠ c := by omega
            show setStatus cfg.status c (.doneJoined r) a = .idle
            simp only [setStatus, if_neg hac]
            exact hinv.outOfRange a haN

/-- The single-flight invariant holds of the initial configuration. -/
theorem sfInit_inv (N : Nat) : SFInv N sfInit := by
  refine ⟨by decide, ?_, ?_, ?_, ?_, ?_, ?_, ?_⟩
  · constructor
    · intro h
      exact absurd h (by decide)
    · rintro ⟨c, -, hc⟩
      simp [sfInit] at hc
  · intro a b ha hb
    simp [sfInit] at ha
  · intro _ c
    simp [sfInit, CallerStatus.isDone, CallerStatus.outcome]
  · intro c r hc
    simp [sfInit, CallerStatus.outcome] at hc
  · intro c _ hne
    simp [sfInit] at hne
  · intro _ _
    rfl
  · intro c _
    rfl

/-- Running a trace whose starts all precede the settle preserves the
single-flight invariant. -/
theorem sfRun_inv (N : Nat) : ∀ (es : List SFEvent) (cfg cfg' : SFConfig),
    sfRun N cfg es = some cfg' → SFInv N cfg →
    (cfg.settled = none → startsBeforeSettle es = true) →
    (cfg.settled ≠ none → hasStart es = false) →
    SFInv N cfg' := by
  intro es
  induction es with
  | nil =>
    intro cfg cfg' h hinv _ _
    simp only [sfRun] at h
    injection h with h
    subst h
    exact hinv
  | cons e es ih =>
    intro cfg cfg' h hinv hbs hhs
    simp only [sfRun] at h
    cases hstep : sfStep N cfg e with
    | none =>
      rw [hstep] at h
      exact Option.noConfusion h
    | some cfg₁ =>
      rw [hstep] at h
      have hstart : ∀ c, e = .start c → cfg.settled = none := by
        intro c he
        subst he
        by_cases hs : cfg.settled = none
        · exact hs
        · have h2 := hhs hs
          rw [hasStart_cons_start] at h2
          exact absurd h2 (by decide)
      have hinv₁ := sfStep_inv hstep hinv hstart
      refine ih cfg₁ cfg' h hinv₁ ?_ ?_
      · intro hs1
        cases e with
        | start c =>
          have h0 := hstart c rfl
          have hbs0 := hbs h0
          rw [startsBeforeSettle_cons_start] at hbs0
          exact hbs0
        | settle r =>
          have hsh := (sfStep_settle_shape hstep).1
          rw [hs1] at hsh
          exact Option.noConfusion hsh
        | resume c =>
          have hsh := sfStep_resume_settled hstep
          have h0 : cfg.settled = none := by
            rw [← hsh.1]
            exact hs1
          exact absurd h0 hsh.2
      · intro hs1
        cases e with
        | start c =>
          have h0 := hstart c rfl
          have heq := sfStep_start_settled hstep
          rw [h0] at heq
          exact absurd heq hs1
        | settle r =>
          have h0 := (sfStep_settle_shape hstep).2
          have hbs0 := hbs h0
          rw [startsBeforeSettle_cons_settle] at hbs0
          simpa using hbs0
        | resume c =>
          have hsh := sfStep_resume_settled hstep
          have h2 := hhs hsh.2
          rw [hasStart_cons_resume] at h2
          exact h2

/-- C1: single-flight refresh.  For every `N ≥ 1` concurrent callers of
`refreshAccessToken` holding a refresh token — a trace of the event-loop
machine in which every caller starts before the in-flight refresh settles,
and which runs until every caller has finished — exactly one network refresh
call is performed, the in-flight marker is null again at the end regardless
of outcome, and every caller observes the same settled outcome (success or
the same error). -/
theorem single_flight_refresh (N : Nat) (es : List SFEvent) (cfg' : SFConfig)
    (hN : 1 ≤ N)
    (hrun : sfRun N sfInit es = some cfg')
    (hconc : startsBeforeSettle es = true)
    (hdone : ∀ c, c < N → (cfg'.status c).isDone = true) :
    cfg'.calls = 1 ∧ cfg'.marker = false ∧
      ∃ r, cfg'.settled = some r ∧ ∀ c, c < N → (cfg'.status c).outcome = some r := by
  have hinv := sfRun_inv N es sfInit cfg' hrun (sfInit_inv N)
    (fun _ => hconc) (fun h => absurd rfl h)
  have h0 : (cfg'.status 0).isDone = true := hdone 0 hN
  have h0ne : cfg'.status 0 ≠ .idle := by
    intro h
    rw [h] at h0
    exact absurd h0 (by decide)
  have hge : 1 ≤ cfg'.calls := hinv.activeCalls 0 hN h0ne
  have hcalls : cfg'.calls = 1 := le_antisymm hinv.callsLe hge
  have hmf : cfg'.marker = false := by
    cases hm : cfg'.marker
    · rfl
    · obtain ⟨c, hcN, hc⟩ := hinv.markerOwner.mp hm
      have hd := hdone c hcN
      rw [hc] at hd
      exact absurd hd (by decide)
  simp only [CallerStatus.isDone] at h0
  obtain ⟨r, hr⟩ := Option.isSome_iff_exists.mp h0
  have hset : cfg'.settled = some r := hinv.doneSettled 0 r hr
  refine ⟨hcalls, hmf, r, hset, ?_⟩
  intro c hcN
  have hd := hdone c hcN
  simp only [CallerStatus.isDone] at hd
  obtain ⟨rc, hrc⟩ := Option.isSome_iff_exists.mp hd
  have hsc := hinv.doneSettled c rc hrc
  rw [hset] at hsc
  injection hsc with hsc
  rw [hrc, hsc]

/-- Witness for C1: two concurrent callers, one settle, two resumes; the
machine reaches a final configuration with one network call, a cleared
marker, and both callers observing the successful outcome. -/
theorem single_flight_refresh_witness :
    sfRun 2 sfInit sfWitnessTrace = some sfWitnessCfg ∧
    sfWitnessCfg.calls = 1 ∧ sfWitnessCfg.marker = false ∧
    ∃ r, sfWitnessCfg.settled = some r ∧
      ∀ c, c < 2 → (sfWitnessCfg.status c).outcome = some r := by
  refine ⟨rfl, single_flight_refresh 2 sfWitnessTrace sfWitnessCfg (by decide) rfl
    (by decide) ?_⟩
  decide

/-- Witness for C10 at a web-context login whose sub-flow throws a
non-`Error` value. -/
theorem login_never_rejects_witness :
    (edgeAuthFlowLogin .web (.rejects none)).2 = false ∧
    (edgeAuthFlowLogin .web (.rejects none)).1 =
      { success := false, user := none, error := some "Login failed"
        tokenData := none } := by
  refine ⟨(login_never_rejects .web (.rejects none)).1, ?_⟩
  exact (login_never_rejects .web (.rejects none)).2.1 none rfl (by simp)

end EdgeFetch
